import Mathlib

/-!
Verification of the supervised worker-pool lifecycle and call-proxy protocol
of the wasm-worker-threads repository.

Shallow embedding of:
- `src/threadpool-manager.cjs` (class ThreadpoolManager) — namespace `MgrA`
- `src/unnamed/part_010` (lifecycle-managing ThreadpoolManager variant) — namespace `MgrB`
- `src/threadpool-host.cjs` (execute-request handling) — namespace `Host`
- `src/workers.cjs` WithThreadPool / `src/threadpool-runner.cjs` CreateThreadPoolRunner
  (the shared caller-counting lifecycle state machine) — namespace `Runner`

JavaScript values carried through the protocol are modelled by a type
parameter `V`; `undefined` is modelled by `Option.none` where a value may be
absent.  Thrown exceptions are modelled by `Except`/`Option String` results.
-/

namespace MgrA

/-- Outcome delivered to a caller through a pending request promise:
`resolve(v)` or `reject(new Error(e))` (we record the error message `e`). -/
inductive Outcome (V : Type) where
  | ok (v : V)
  | err (e : String)
deriving DecidableEq, Repr

/-- Messages the ThreadPoolHost worker sends to the manager
(`src/threadpool-host.cjs` posts `ready`, `result`, `heartbeat` objects).
A `result` message carries `requestId`, `success` and the `result`/`error`
fields of the posted object. -/
inductive HostMsg (V : Type) where
  | ready
  | result (requestId : Nat) (success : Bool) (result : V) (error : String)
  | heartbeat (timestamp : Nat)
deriving DecidableEq, Repr

/-- The mutable fields of `class ThreadpoolManager` in
`src/threadpool-manager.cjs` that the verified operations touch, plus two
observation logs: `posted` records messages posted to the host worker and
`settled` records which pending promise was resolved/rejected with what. -/
structure MState (V : Type) where
  isThreadPoolHostReady : Bool
  nextRequestId : Nat
  /-- ids that currently have an entry in the `pendingRequests` Map -/
  pendingRequests : List Nat
  /-- log: `(requestId, functionName)` of every `execute` message posted to the host -/
  posted : List (Nat × String)
  /-- log: each `(requestId, outcome)` delivered to a caller promise -/
  settled : List (Nat × Outcome V)
  lastHeartbeat : Option Nat
deriving DecidableEq, Repr

/-- Method `execute(functionName, args)` (src/threadpool-manager.cjs lines 85-107).
Returns the updated manager state together with `.ok requestId`, or
`.error` for the thrown exception (in which case the state is unchanged:
the throw happens before any mutation). -/
def execute (s : MState V) (functionName : String) : MState V × Except String Nat :=
  if s.isThreadPoolHostReady = false then
    -- `if (!this.isThreadPoolHostReady) throw new Error('ThreadPool not ready')`
    (s, Except.error "ThreadPool not ready")
  else
    -- `const requestId = this.nextRequestId++`
    let requestId := s.nextRequestId
    ({ s with
        nextRequestId := s.nextRequestId + 1,
        -- `this.pendingRequests.set(requestId, ...)`
        pendingRequests := s.pendingRequests ++ [requestId],
        -- `this.threadPoolHostWorker.postMessage({ type: 'execute', requestId, functionName, args })`
        posted := s.posted ++ [(requestId, functionName)] },
      Except.ok requestId)

/-- Handler `handleWorkerMessage(msg)` (src/threadpool-manager.cjs lines 112-127).
Returns the updated state and `some e` when the handler throws.
For a `result` message the code runs
`const request = this.pendingRequests.get(msg.requestId)` and then
`msg.success ? request.resolve(msg.result) : request.reject(new Error(msg.error))`
with no guard: when the id has no entry, `request` is `undefined` and the
property access throws a TypeError before any state is mutated.
The stored `resolve`/`reject` closures first delete the map entry and then
settle the promise. -/
def handleWorkerMessage (s : MState V) (msg : HostMsg V) : MState V × Option String :=
  match msg with
  | HostMsg.ready =>
      ({ s with isThreadPoolHostReady := true }, none)
  | HostMsg.result requestId success result error =>
      if requestId ∈ s.pendingRequests then
        ({ s with
            pendingRequests := s.pendingRequests.erase requestId,
            settled := s.settled ++
              [(requestId, if success then Outcome.ok result else Outcome.err error)] },
          none)
      else
        (s, some "TypeError: request is undefined")
  | HostMsg.heartbeat ts =>
      ({ s with lastHeartbeat := some ts }, none)

/-- Issue one `execute` call per function name in order, collecting the
allocated request ids (calls that throw allocate nothing). -/
def executeAll (s : MState V) (fns : List String) : MState V × List Nat :=
  match fns with
  | [] => (s, [])
  | fn :: rest =>
      match execute s fn with
      | (s₁, Except.ok id) =>
          let (s₂, ids) := executeAll s₁ rest
          (s₂, id :: ids)
      | (s₁, Except.error _) => executeAll s₁ rest

/-- Deliver a list of host messages to `handleWorkerMessage` in order
(the state threads through; a thrown handler leaves the state unchanged). -/
def deliverAll (s : MState V) (msgs : List (HostMsg V)) : MState V :=
  match msgs with
  | [] => s
  | msg :: rest => deliverAll (handleWorkerMessage s msg).1 rest

end MgrA

namespace MgrB

/-- Pool lifecycle state of the part_010 ThreadpoolManager:
`this.poolState = 'none' | 'initializing' | 'running' | 'exiting'`. -/
inductive PoolState where
  | statusNone
  | statusInitializing
  | statusRunning
  | statusExiting
deriving DecidableEq, Repr

/-- Messages the manager posts to the ThreadPoolHost worker. -/
inductive MgrMsg where
  /-- Message `postMessage(type wasmCall, callId, functionName, args)` -/
  | wasmCall (callId : Nat) (functionName : String)
  /-- Message `postMessage(type initPool, ports, numWorkers)` -/
  | initPool (numWorkers : Nat)
  /-- Message `postMessage(type terminate)` -/
  | terminate
deriving DecidableEq, Repr

/-- The mutable fields of the part_010 `ThreadpoolManager` touched by the
verified operations, plus observation logs (`posted`, `settled`). -/
structure MState (V : Type) where
  timeout : Nat
  poolState : PoolState
  nextRequestId : Nat
  /-- ids that currently have an entry in the `pendingWasmRequests` Map -/
  pendingWasmRequests : List Nat
  /-- log: each `(callId, outcome)` delivered to a pending promise -/
  settled : List (Nat × MgrA.Outcome V)
  /-- log: messages posted to the ThreadPoolHost worker -/
  posted : List MgrMsg
  lastHeartbeat : Nat
  heartbeatMonitorOn : Bool
  /-- number of currently open MessageChannels (`this.workerChannels`) -/
  workerChannelsOpen : Nat
  /-- whether `this.threadPoolHostWorker` is non-null -/
  hostWorkerLive : Bool
deriving DecidableEq, Repr

/-- Calling a function on the proxy returned by `createWasmProxy`
(src/unnamed/part_010 lines 94-109): allocates
`const callId = this.nextRequestId++`, stores a pending entry and posts a
`wasmCall` message.  Returns the new state and the allocated id. -/
def wasmProxyCall (s : MState V) (functionName : String) : MState V × Nat :=
  let callId := s.nextRequestId
  ({ s with
      nextRequestId := s.nextRequestId + 1,
      pendingWasmRequests := s.pendingWasmRequests ++ [callId],
      posted := s.posted ++ [MgrMsg.wasmCall callId functionName] },
    callId)

/-- The completed effect of `shutdown()` (src/unnamed/part_010 lines 221-242):
stop the heartbeat monitor, close every worker channel, post `terminate` to
the host worker and await its exit, then set `this.poolState = 'none'`. -/
def shutdown (s : MState V) : MState V :=
  let s₁ : MState V := { s with heartbeatMonitorOn := false, workerChannelsOpen := 0 }
  let s₂ : MState V :=
    if s₁.hostWorkerLive then
      { s₁ with posted := s₁.posted ++ [MgrMsg.terminate], hostWorkerLive := false }
    else s₁
  { s₂ with poolState := PoolState.statusNone }

/-- Handler `handleWorkerFailure(error)` (src/unnamed/part_010 lines 193-202):
reject every pending request with `new Error('Worker failed: ' ++ error)`,
clear the map, then run `shutdown()`. -/
def handleWorkerFailure (s : MState V) (error : String) : MState V :=
  shutdown { s with
    settled := s.settled ++
      s.pendingWasmRequests.map (fun id => (id, MgrA.Outcome.err ("Worker failed: " ++ error))),
    pendingWasmRequests := [] }

/-- One firing of the interval callback installed by
`startHeartbeatMonitoring()` (src/unnamed/part_010 lines 207-215):
`timeSinceLastHeartbeat = Date.now() - this.lastHeartbeat`; when it exceeds
`this.timeout` the failure handler runs, otherwise nothing happens.
The result is the state after the triggered shutdown has completed. -/
def heartbeatMonitorTick (s : MState V) (now : Nat) : MState V :=
  let timeSinceLastHeartbeat := now - s.lastHeartbeat
  if s.timeout < timeSinceLastHeartbeat then
    handleWorkerFailure s "Heartbeat timeout failure"
  else s

/-- Handler `handleWorkerMessage(msg)` for the `wasmResult` case
(src/unnamed/part_010 lines 177-182): look up the pending entry, settle it,
delete the map entry.  As in MgrA, an unknown `callId` makes the unguarded
`wasmRequest.resolve`/`wasmRequest.reject` access throw before any mutation. -/
def handleWasmResult (s : MState V) (callId : Nat) (success : Bool)
    (result : V) (error : String) : MState V × Option String :=
  if callId ∈ s.pendingWasmRequests then
    ({ s with
        settled := s.settled ++
          [(callId, if success then MgrA.Outcome.ok result else MgrA.Outcome.err error)],
        pendingWasmRequests := s.pendingWasmRequests.erase callId },
      none)
  else
    (s, some "TypeError: wasmRequest is undefined")

/-- The atomic state mutations of the part_010 manager, each taken from one
region of the source; an arbitrary interleaving of these covers every
lifecycle history of one manager instance, including re-initialization
cycles (`execute` lines 118-167 drives `poolState` through
initializing/running/exiting/none; the proxy and the handlers run between
those transitions). -/
inductive MgrOp (V : Type) where
  /-- a call through the wasm proxy allocates a request id (lines 98-105) -/
  | proxyCall (functionName : String)
  /-- a `wasmResult` message from the host (lines 177-182) -/
  | wasmResult (callId : Nat) (success : Bool) (result : V) (error : String)
  /-- a `heartbeat` message from the host (lines 183-185) -/
  | heartbeat (timestamp : Nat)
  /-- failure handling `handleWorkerFailure` (lines 193-202) -/
  | workerFailure (error : String)
  /-- one heartbeat-monitor interval tick (lines 207-215) -/
  | monitorTick (now : Nat)
  /-- method `execute` enters initialization, setting poolState to initializing (lines 123, 142) -/
  | beginInit
  /-- the init promise resolves: `this.poolState = 'running'` (lines 125, 144) -/
  | initSuccess
  /-- the init promise rejects: `this.poolState = 'none'` (lines 128, 147) -/
  | initFailure
  /-- the finally block of `execute` with no pending requests:
      `this.poolState = 'exiting'; this.exitPromise = this.shutdown()` (lines 162-164) -/
  | beginExit
deriving DecidableEq, Repr

/-- Apply one operation; the second component is the request id it
allocated, if any. -/
def applyOp (s : MState V) (op : MgrOp V) : MState V × Option Nat :=
  match op with
  | MgrOp.proxyCall fn =>
      let (s₁, id) := wasmProxyCall s fn
      (s₁, some id)
  | MgrOp.wasmResult callId success result error =>
      ((handleWasmResult s callId success result error).1, none)
  | MgrOp.heartbeat ts => ({ s with lastHeartbeat := ts }, none)
  | MgrOp.workerFailure e => (handleWorkerFailure s e, none)
  | MgrOp.monitorTick now => (heartbeatMonitorTick s now, none)
  | MgrOp.beginInit => ({ s with poolState := PoolState.statusInitializing }, none)
  | MgrOp.initSuccess => ({ s with poolState := PoolState.statusRunning }, none)
  | MgrOp.initFailure => ({ s with poolState := PoolState.statusNone }, none)
  | MgrOp.beginExit => ({ s with poolState := PoolState.statusExiting }, none)

/-- Run a sequence of operations, collecting every allocated request id in
order. -/
def runOps (s : MState V) (ops : List (MgrOp V)) : MState V × List Nat :=
  match ops with
  | [] => (s, [])
  | op :: rest =>
      match applyOp s op with
      | (s₁, some id) =>
          let (s₂, ids) := runOps s₁ rest
          (s₂, id :: ids)
      | (s₁, none) => runOps s₁ rest

end MgrB

namespace Host

/-- A `{ type: 'result', requestId, success, result | error }` object posted
back to the manager by the ThreadPoolHost worker. -/
structure ResultMsg (V : Type) where
  requestId : Nat
  success : Bool
  /-- the `result` field (present on success) -/
  result : Option V
  /-- the `error` field (present on failure; value of `error.toString()`) -/
  error : Option String
deriving DecidableEq, Repr

/-- An `execute` request received from the manager:
`{ type: 'execute', requestId, functionName, args }`. -/
structure ExecMsg (V : Type) where
  requestId : Nat
  functionName : String
  args : List V
deriving DecidableEq, Repr

/-- The wasm module seen by the host: a partial mapping from export names to
functions (`wasmModule[functionName]` is `undefined` for a missing export,
modelled by `none`). -/
def WasmModule (V : Type) := String → Option (List V → V)

/-- Value of `error.toString()` for `new Error(m)` in Node. -/
def errorToString (m : String) : String := "Error: " ++ m

/-- Handling of one `execute` message by the ThreadPoolHost worker
(src/threadpool-host.cjs lines 38-67): inside `withThreadPool`, look up
`wasmModule[functionName]`; if absent throw
`new Error("Function 'name' not found")`, which the catch turns into a
single failure result message; otherwise call the function and post a
single success result message.  Exactly one result message is posted per
request on either path. -/
def handleExecute (wasmModule : WasmModule V) (msg : ExecMsg V) : ResultMsg V :=
  match wasmModule msg.functionName with
  | some fn =>
      -- `parentPort.postMessage({ type: 'result', requestId, success: true, result })`
      { requestId := msg.requestId, success := true,
        result := some (fn msg.args), error := none }
  | none =>
      -- `throw new Error(...)` then the catch posts
      -- `{ type: 'result', requestId, success: false, error: error.toString() }`
      { requestId := msg.requestId, success := false, result := none,
        error := some (errorToString
          ("Function \x27" ++ msg.functionName ++ "\x27 not found")) }

/-- Sequential processing of a stream of `execute` messages.  Each request
runs one full `withThreadPool` cycle and the outcome of one request depends
only on the module lookup for that request, so the host posts exactly the
per-message results in order. -/
def processMessages (wasmModule : WasmModule V) (msgs : List (ExecMsg V)) :
    List (ResultMsg V) :=
  match msgs with
  | [] => []
  | msg :: rest => handleExecute wasmModule msg :: processMessages wasmModule rest

end Host

namespace Single

/-- Lifecycle hook and callback events observable from one `withThreadPool`
call: invoking `initThreadPool`, starting / finishing the caller-supplied
`run`, invoking `exitThreadPool`. -/
inductive Ev where
  | initCall
  | runStart
  | runEnd
  | exitCall
deriving DecidableEq, Repr

/-- Pool states used by both runner implementations. -/
inductive St where
  | stNone
  | stInitializing
  | stRunning
  | stExiting
deriving DecidableEq, Repr

/-- Straight-line execution of one isolated call to the runner returned by
`WithThreadPool` (src/workers.cjs lines 17-73), with `run` resolving to `v`:
the ordered hook events, the final pool state, and the value the returned
promise resolves with (`Option V`: `none` models `undefined`). -/
def workersSingleCall (v : V) : List Ev × St × Option V :=
  -- state = none, isNeededBy = 0; call: isNeededBy++ (= 1)
  -- case 'none': const initPromise = initThreadPool(); state = initializing
  let ev₀ : List Ev := [Ev.initCall]
  -- await state.initPromise; state = running
  -- result = await run()
  let ev₁ : List Ev := ev₀ ++ [Ev.runStart, Ev.runEnd]
  let result : Option V := some v
  -- finally: isNeededBy-- (= 0); state is running; isNeededBy < 1:
  -- const exitPromise = exitThreadPool(); state = exiting
  let ev₂ : List Ev := ev₁ ++ [Ev.exitCall]
  -- await exitPromise; state was not changed meanwhile: state = none
  -- return result
  (ev₂, St.stNone, result)

/-- Straight-line execution of one isolated call to the runner returned by
`CreateThreadPoolRunner` (src/threadpool-runner.cjs lines 24-67), with `run`
resolving to `v`.  The lifecycle logic is identical to `workersSingleCall`,
but the body runs `await run();` without assigning to `result`
(`let result; try { await run(); } finally ... return result`), so the
returned promise resolves with `undefined`. -/
def runnerSingleCall (v : V) : List Ev × St × Option V :=
  -- callers++ (= 1); case 'none': state = initializing, initPromise = initThreadPool()
  let ev₀ : List Ev := [Ev.initCall]
  -- await state.initPromise; state = running
  -- let result; await run()   (the resolved value of run() is dropped)
  let ev₁ : List Ev := ev₀ ++ [Ev.runStart, Ev.runEnd]
  let result : Option V := (fun (_ : V) => none) v
  -- finally: callers-- (= 0) < 1: state = exiting, exitPromise = exitThreadPool()
  let ev₂ : List Ev := ev₁ ++ [Ev.exitCall]
  -- await state.exitPromise; state = none
  -- return result            (still undefined)
  (ev₂, St.stNone, result)

end Single

namespace Runner

/-!
Interleaving semantics of the runner returned by `WithThreadPool`
(src/workers.cjs lines 17-73).  `CreateThreadPoolRunner`
(src/threadpool-runner.cjs lines 24-67) has character-identical lifecycle
logic (same counter, same switch, same finally block; it differs only in
dropping the value of `run()`), so this one step relation embeds the
lifecycle behaviour of both runners.

Each concurrent caller of `withThreadPool(run)` is a process; the shared
mutable closure state is `isNeededBy` (the caller counter) and `state` (the
pool lifecycle).  A step is one synchronous segment between `await`
suspension points of one caller, or the resolution of one of the promises
the callers await.  Promise resolutions follow the JavaScript microtask
rules: all continuations registered on one promise run back to back in
registration order when it resolves, so

- `initDone` resumes every caller suspended on the current init promise
  (each runs `state = { type: 'running' }` and then starts its `run()`), and
- `exitDone` first resumes the caller suspended on the exit promise
  (it registered first, inside the same synchronous block that invoked
  `exitThreadPool()`, and runs `if (state.type === 'exiting') state = none`)
  and then, if a later submission chained
  `state.exitPromise.then(initThreadPool)` behind the teardown, invokes that
  chained `initThreadPool`.
-/

/-- Where one caller of `withThreadPool` stands. -/
inductive Phase where
  /-- the call has not started yet -/
  | idle
  /-- suspended at `await state.initPromise`; `gen` names which init promise -/
  | waitingInit (gen : Nat)
  /-- executing `await run()` -/
  | runningWork
  /-- suspended at `await exitPromise` in the finally block -/
  | waitingExit
  /-- the call has returned -/
  | finished
deriving DecidableEq, Repr

/-- The `state.type` values of the runner closure.  `psInitializing started`
records whether the `initThreadPool()` of the current init promise has been
invoked yet: a caller arriving during teardown chains
`state.exitPromise.then(initThreadPool)`, so its init promise exists but its
`initThreadPool()` only starts when the exit promise resolves
(`started = false` until then). -/
inductive PoolSt where
  | psNone
  | psInitializing (started : Bool)
  | psRunning
  | psExiting
deriving DecidableEq, Repr

/-- Shared state of the runner closure plus the phase of every caller. -/
structure Config where
  /-- counter `isNeededBy` in src/workers.cjs, `callers` in src/threadpool-runner.cjs -/
  isNeededBy : Int
  pool : PoolSt
  /-- an `exitThreadPool()` promise has been created and has not resolved -/
  exitInFlight : Bool
  /-- number of distinct init promises created so far (names the current one) -/
  initGen : Nat
  procs : List Phase
deriving DecidableEq, Repr

/-- What a step makes externally observable: whether it invokes
`initThreadPool` / `exitThreadPool`, and the callers whose `run()` starts
during it. -/
structure Label where
  initCall : Bool
  exitCall : Bool
  begun : List Nat
deriving DecidableEq, Repr

/-- Phases holding a unit of the caller counter: incremented on entry,
decremented in the finally block, so exactly the callers that have entered
and not yet run their finally block. -/
def isActive : Phase → Bool
  | Phase.waitingInit _ => true
  | Phase.runningWork => true
  | _ => false

/-- Continuation of a caller suspended on the init promise once it resolves:
`state = { type: 'running' }` and start `run()`. -/
def resumeWaiter : Phase → Phase
  | Phase.waitingInit _ => Phase.runningWork
  | p => p

/-- Continuation of the caller suspended on the exit promise once it
resolves: finish the call. -/
def exitWaiterDone : Phase → Phase
  | Phase.waitingExit => Phase.finished
  | p => p

/-- Indices of the callers suspended on the init promise. -/
def waitingIdx (l : List Phase) : List Nat :=
  (List.range l.length).filter fun i =>
    match l[i]? with
    | some (Phase.waitingInit _) => true
    | _ => false

/-- Pool state after the exit promise resolves: the resumed caller runs
`if (state.type === 'exiting') state = { type: 'none' }`, then a chained
init (if any) starts. -/
def poolAfterExit : PoolSt → PoolSt
  | PoolSt.psExiting => PoolSt.psNone
  | PoolSt.psInitializing false => PoolSt.psInitializing true
  | p => p

/-- Whether the resolution of the exit promise triggers a chained
`initThreadPool()` (a caller arrived during teardown). -/
def exitChainsInit : PoolSt → Bool
  | PoolSt.psInitializing false => true
  | _ => false

/-- One interleaving step of the runner.  The `enter_*` constructors are the
synchronous prefix of `withThreadPool(run)` for caller `i` (counter
increment, the `switch` on `state.type`, and either suspension on the init
promise or the start of `run()`); `finish_*` are the finally block after
caller `i`'s `run()` settles; `initDone` / `exitDone` are promise
resolutions. -/
inductive Step : Config → Label → Config → Prop where
  /-- lines 22-27: `case 'none'`: invoke `initThreadPool()`, set
  `state = initializing`, then (line 41) suspend on the new init promise -/
  | enter_none (c : Config) (i : Nat)
      (hidle : c.procs[i]? = some Phase.idle)
      (hpool : c.pool = PoolSt.psNone) :
      Step c ⟨true, false, []⟩
        { c with isNeededBy := c.isNeededBy + 1,
                 pool := PoolSt.psInitializing true,
                 initGen := c.initGen + 1,
                 procs := c.procs.set i (Phase.waitingInit (c.initGen + 1)) }
  /-- lines 28-30 with `state.type === 'initializing'`: no state change, then
  (line 41) suspend on the in-flight init promise -/
  | enter_initializing (c : Config) (i : Nat) (b : Bool)
      (hidle : c.procs[i]? = some Phase.idle)
      (hpool : c.pool = PoolSt.psInitializing b) :
      Step c ⟨false, false, []⟩
        { c with isNeededBy := c.isNeededBy + 1,
                 procs := c.procs.set i (Phase.waitingInit c.initGen) }
  /-- lines 28-30 with `state.type === 'running'`: no await, reassign
  `state = running` (line 45) and start `run()` -/
  | enter_running (c : Config) (i : Nat)
      (hidle : c.procs[i]? = some Phase.idle)
      (hpool : c.pool = PoolSt.psRunning) :
      Step c ⟨false, false, [i]⟩
        { c with isNeededBy := c.isNeededBy + 1,
                 pool := PoolSt.psRunning,
                 procs := c.procs.set i Phase.runningWork }
  /-- lines 31-37: `case 'exiting'`: chain
  `initPromise = state.exitPromise.then(initThreadPool)` (no
  `initThreadPool()` call yet), set `state = initializing`, then suspend on
  the chained init promise -/
  | enter_exiting (c : Config) (i : Nat)
      (hidle : c.procs[i]? = some Phase.idle)
      (hpool : c.pool = PoolSt.psExiting) :
      Step c ⟨false, false, []⟩
        { c with isNeededBy := c.isNeededBy + 1,
                 pool := PoolSt.psInitializing false,
                 initGen := c.initGen + 1,
                 procs := c.procs.set i (Phase.waitingInit (c.initGen + 1)) }
  /-- the started init promise resolves: every suspended caller resumes,
  runs `state = { type: 'running' }` (line 45) and starts its `run()` -/
  | initDone (c : Config)
      (hpool : c.pool = PoolSt.psInitializing true) :
      Step c ⟨false, false, waitingIdx c.procs⟩
        { c with pool := PoolSt.psRunning,
                 procs := c.procs.map resumeWaiter }
  /-- lines 51-69, last caller: `isNeededBy--`, state is `running`,
  `isNeededBy < 1`: invoke `exitThreadPool()`, set `state = exiting`,
  suspend on the exit promise -/
  | finish_last (c : Config) (i : Nat)
      (hrun : c.procs[i]? = some Phase.runningWork)
      (hpool : c.pool = PoolSt.psRunning)
      (hcount : c.isNeededBy - 1 < 1) :
      Step c ⟨false, true, []⟩
        { c with isNeededBy := c.isNeededBy - 1,
                 pool := PoolSt.psExiting,
                 exitInFlight := true,
                 procs := c.procs.set i Phase.waitingExit }
  /-- lines 51-61, other callers remain: `isNeededBy--`, state is `running`,
  no teardown, the call returns -/
  | finish_more (c : Config) (i : Nat)
      (hrun : c.procs[i]? = some Phase.runningWork)
      (hpool : c.pool = PoolSt.psRunning)
      (hcount : ¬ c.isNeededBy - 1 < 1) :
      Step c ⟨false, false, []⟩
        { c with isNeededBy := c.isNeededBy - 1,
                 procs := c.procs.set i Phase.finished }
  /-- lines 55-58: the sanity check `if (state.type !== 'running') throw`:
  the call fails without touching the pool (shown unreachable below) -/
  | finish_bug (c : Config) (i : Nat)
      (hrun : c.procs[i]? = some Phase.runningWork)
      (hpool : c.pool ≠ PoolSt.psRunning) :
      Step c ⟨false, false, []⟩
        { c with isNeededBy := c.isNeededBy - 1,
                 procs := c.procs.set i Phase.finished }
  /-- the exit promise resolves: the suspended caller runs
  `if (state.type === 'exiting') state = none` and returns; then a chained
  `initThreadPool()` (registered by a caller that arrived during teardown)
  is invoked, if present -/
  | exitDone (c : Config)
      (hflight : c.exitInFlight = true) :
      Step c ⟨exitChainsInit c.pool, false, []⟩
        { c with exitInFlight := false,
                 pool := poolAfterExit c.pool,
                 procs := c.procs.map exitWaiterDone }

/-- Fresh runner closure (`state = none`, `isNeededBy = 0`) with `n` callers
none of which has invoked `withThreadPool` yet. -/
def initConfig (n : Nat) : Config :=
  { isNeededBy := 0, pool := PoolSt.psNone, exitInFlight := false,
    initGen := 0, procs := List.replicate n Phase.idle }

/-- Some step with some label. -/
def StepRel (c c' : Config) : Prop := ∃ l, Step c l c'

/-- Configurations reachable by interleaving `n` callers from a fresh
runner. -/
def Reachable (n : Nat) (c : Config) : Prop :=
  Relation.ReflTransGen StepRel (initConfig n) c

/-- Inductive invariant of the runner state machine. -/
structure Inv (c : Config) : Prop where
  /-- the caller counter equals the number of callers between their
  increment and their decrement -/
  counter_eq : c.isNeededBy = (c.procs.countP isActive : Int)
  /-- while anyone is inside `run()`, the pool state is `running` -/
  run_running : ∀ p ∈ c.procs, p = Phase.runningWork → c.pool = PoolSt.psRunning
  /-- every caller suspended on an init promise awaits the current one -/
  gen_current : ∀ g : Nat, Phase.waitingInit g ∈ c.procs → g = c.initGen
  /-- while an exit promise is pending the pool is `exiting` or holds a
  chained, not yet started init -/
  flight_pool : c.exitInFlight = true →
    c.pool = PoolSt.psExiting ∨ c.pool = PoolSt.psInitializing false
  /-- conversely, those two pool states occur only under a pending exit -/
  pool_flight : c.pool = PoolSt.psExiting ∨ c.pool = PoolSt.psInitializing false →
    c.exitInFlight = true
  /-- in pool states `none` and `exiting` no caller holds the counter -/
  quiesce : c.pool = PoolSt.psNone ∨ c.pool = PoolSt.psExiting →
    c.procs.countP isActive = 0

/-- Updating one slot shifts `countP` by the difference of the old and new
entries. -/
theorem countP_set (p : Phase → Bool) (l : List Phase) (i : Nat) (a b : Phase)
    (h : l[i]? = some a) :
    (l.set i b).countP p + (if p a then 1 else 0)
      = l.countP p + (if p b then 1 else 0) := by
  induction l generalizing i with
  | nil => simp at h
  | cons x xs ih =>
    cases i with
    | zero =>
      simp only [List.getElem?_cons_zero, Option.some_inj] at h
      subst h
      simp only [List.set_cons_zero, List.countP_cons]
      omega
    | succ n =>
      simp only [List.getElem?_cons_succ] at h
      have h2 := ih n h
      simp only [List.set_cons_succ, List.countP_cons]
      omega

/-- Resuming an init waiter preserves counter membership. -/
theorem isActive_resumeWaiter (p : Phase) : isActive (resumeWaiter p) = isActive p := by
  cases p <;> rfl

/-- Finishing the exit waiter preserves counter membership. -/
theorem isActive_exitWaiterDone (p : Phase) : isActive (exitWaiterDone p) = isActive p := by
  cases p <;> rfl

theorem countP_map_resumeWaiter (l : List Phase) :
    (l.map resumeWaiter).countP isActive = l.countP isActive := by
  rw [List.countP_map]
  exact List.countP_congr fun a _ => by
    simp [Function.comp, isActive_resumeWaiter]

theorem countP_map_exitWaiterDone (l : List Phase) :
    (l.map exitWaiterDone).countP isActive = l.countP isActive := by
  rw [List.countP_map]
  exact List.countP_congr fun a _ => by
    simp [Function.comp, isActive_exitWaiterDone]

/-- After the init promise resolves nobody is suspended on it any more. -/
theorem waitingInit_not_mem_map_resumeWaiter (l : List Phase) (g : Nat) :
    Phase.waitingInit g ∉ l.map resumeWaiter := by
  intro h
  rcases List.mem_map.mp h with ⟨p, _, hp⟩
  cases p <;> simp [resumeWaiter] at hp

theorem waitingInit_mem_of_map_exitWaiterDone (l : List Phase) (g : Nat)
    (h : Phase.waitingInit g ∈ l.map exitWaiterDone) : Phase.waitingInit g ∈ l := by
  rcases List.mem_map.mp h with ⟨p, hpl, hp⟩
  cases p <;> simp [exitWaiterDone] at hp
  subst hp
  exact hpl

theorem runningWork_mem_of_map_exitWaiterDone (l : List Phase)
    (h : Phase.runningWork ∈ l.map exitWaiterDone) : Phase.runningWork ∈ l := by
  rcases List.mem_map.mp h with ⟨p, hpl, hp⟩
  cases p <;> simp [exitWaiterDone] at hp
  exact hpl

/-- An active phase in the list makes the counter positive. -/
theorem countP_pos_of_mem_active {l : List Phase} {p : Phase}
    (hmem : p ∈ l) (hact : isActive p = true) : 0 < l.countP isActive :=
  List.countP_pos_iff.mpr ⟨p, hmem, hact⟩

/-- The invariant holds in the fresh configuration. -/
theorem inv_initConfig (n : Nat) : Inv (initConfig n) := by
  refine ⟨?_, ?_, ?_, ?_, ?_, ?_⟩
  · have : (List.replicate n Phase.idle).countP isActive = 0 :=
      List.countP_eq_zero.mpr fun a ha => by
        rw [List.eq_of_mem_replicate ha]; simp [isActive]
    simp [initConfig, this]
  · intro p hp hrun
    rw [List.eq_of_mem_replicate hp] at hrun
    exact absurd hrun (by simp)
  · intro g hg
    have := List.eq_of_mem_replicate hg
    exact absurd this (by simp)
  · intro h; exact absurd h (by simp [initConfig])
  · intro h
    rcases h with h | h <;> simp [initConfig] at h
  · intro _
    exact List.countP_eq_zero.mpr fun a ha => by
      rw [List.eq_of_mem_replicate ha]; simp [isActive]

/-- The invariant is preserved by every step. -/
theorem inv_step (c c' : Config) (l : Label) (hinv : Inv c) (hstep : Step c l c') :
    Inv c' := by
  obtain ⟨hcount, hrun, hgen, hflight, hpoolf, hquiesce⟩ := hinv
  cases hstep with
  | enter_none i hidle hpool =>
    have hzero : c.procs.countP isActive = 0 := hquiesce (Or.inl hpool)
    have hset := countP_set isActive c.procs i Phase.idle (Phase.waitingInit (c.initGen + 1)) hidle
    simp [isActive] at hset
    refine ⟨?_, ?_, ?_, ?_, ?_, ?_⟩
    · show c.isNeededBy + 1 = _
      rw [hcount]
      push_cast
      omega
    · intro p hp hpr
      rcases List.mem_or_eq_of_mem_set hp with hp | hp
      · exact absurd (hrun p hp hpr) (by rw [hpool]; intro h; cases h)
      · rw [hpr] at hp; cases hp
    · intro g hg
      rcases List.mem_or_eq_of_mem_set hg with hg | hg
      · have h1 := countP_pos_of_mem_active hg (by simp [isActive])
        omega
      · cases hg; rfl
    · intro h
      rcases hflight h with h2 | h2 <;> rw [hpool] at h2 <;> cases h2
    · intro h
      rcases h with h | h <;> cases h
    · intro h
      rcases h with h | h <;> cases h
  | enter_initializing i b hidle hpool =>
    have hset := countP_set isActive c.procs i Phase.idle (Phase.waitingInit c.initGen) hidle
    simp [isActive] at hset
    refine ⟨?_, ?_, ?_, ?_, ?_, ?_⟩
    · show c.isNeededBy + 1 = _
      rw [hcount]
      push_cast
      omega
    · intro p hp hpr
      rcases List.mem_or_eq_of_mem_set hp with hp | hp
      · exact absurd (hrun p hp hpr) (by rw [hpool]; intro h; cases h)
      · rw [hpr] at hp; cases hp
    · intro g hg
      rcases List.mem_or_eq_of_mem_set hg with hg | hg
      · exact hgen g hg
      · cases hg; rfl
    · intro h
      rcases hflight h with h2 | h2
      · rw [hpool] at h2; cases h2
      · exact Or.inr h2
    · intro h
      exact hpoolf h
    · intro h
      rcases h with h | h <;> rw [hpool] at h <;> cases h
  | enter_running i hidle hpool =>
    have hset := countP_set isActive c.procs i Phase.idle Phase.runningWork hidle
    simp [isActive] at hset
    refine ⟨?_, ?_, ?_, ?_, ?_, ?_⟩
    · show c.isNeededBy + 1 = _
      rw [hcount]
      push_cast
      omega
    · intro p _ _; rfl
    · intro g hg
      rcases List.mem_or_eq_of_mem_set hg with hg | hg
      · exact hgen g hg
      · cases hg
    · intro h
      rcases hflight h with h2 | h2 <;> rw [hpool] at h2 <;> cases h2
    · intro h
      rcases h with h | h <;> cases h
    · intro h
      rcases h with h | h <;> cases h
  | enter_exiting i hidle hpool =>
    have hzero : c.procs.countP isActive = 0 := hquiesce (Or.inr hpool)
    have hset := countP_set isActive c.procs i Phase.idle (Phase.waitingInit (c.initGen + 1)) hidle
    simp [isActive] at hset
    refine ⟨?_, ?_, ?_, ?_, ?_, ?_⟩
    · show c.isNeededBy + 1 = _
      rw [hcount]
      push_cast
      omega
    · intro p hp hpr
      rcases List.mem_or_eq_of_mem_set hp with hp | hp
      · exact absurd (hrun p hp hpr) (by rw [hpool]; intro h; cases h)
      · rw [hpr] at hp; cases hp
    · intro g hg
      rcases List.mem_or_eq_of_mem_set hg with hg | hg
      · have h1 := countP_pos_of_mem_active hg (by simp [isActive])
        omega
      · cases hg; rfl
    · intro _
      exact Or.inr rfl
    · intro _
      exact hpoolf (Or.inl hpool)
    · intro h
      rcases h with h | h <;> cases h
  | initDone hpool =>
    refine ⟨?_, ?_, ?_, ?_, ?_, ?_⟩
    · show c.isNeededBy = _
      rw [hcount, countP_map_resumeWaiter]
    · intro p _ _; rfl
    · intro g hg
      exact absurd hg (waitingInit_not_mem_map_resumeWaiter c.procs g)
    · intro h
      rcases hflight h with h2 | h2 <;> rw [hpool] at h2
      · cases h2
      · cases h2
    · intro h
      rcases h with h | h <;> cases h
    · intro h
      rcases h with h | h <;> cases h
  | finish_last i hrunp hpool hcnt =>
    have hmem : Phase.runningWork ∈ c.procs := List.getElem?_mem hrunp
    have hpos : 0 < c.procs.countP isActive :=
      countP_pos_of_mem_active hmem (by simp [isActive])
    have hset := countP_set isActive c.procs i Phase.runningWork Phase.waitingExit hrunp
    simp [isActive] at hset
    have hzero : (c.procs.set i Phase.waitingExit).countP isActive = 0 := by omega
    refine ⟨?_, ?_, ?_, ?_, ?_, ?_⟩
    · show c.isNeededBy - 1 = _
      rw [hcount]
      push_cast
      omega
    · intro p hp hpr
      rw [hpr] at hp
      have hp2 : Phase.runningWork ∈ c.procs.set i Phase.waitingExit := hp
      have := countP_pos_of_mem_active hp2 (by simp [isActive])
      omega
    · intro g hg
      rcases List.mem_or_eq_of_mem_set hg with hg | hg
      · exact hgen g hg
      · cases hg
    · intro _
      exact Or.inl rfl
    · intro _
      rfl
    · intro _
      exact hzero
  | finish_more i hrunp hpool hcnt =>
    have hmem : Phase.runningWork ∈ c.procs := List.getElem?_mem hrunp
    have hset := countP_set isActive c.procs i Phase.runningWork Phase.finished hrunp
    simp [isActive] at hset
    refine ⟨?_, ?_, ?_, ?_, ?_, ?_⟩
    · show c.isNeededBy - 1 = _
      rw [hcount]
      push_cast
      omega
    · intro p _ _
      exact hpool
    · intro g hg
      rcases List.mem_or_eq_of_mem_set hg with hg | hg
      · exact hgen g hg
      · cases hg
    · intro h
      rcases hflight h with h2 | h2 <;> rw [hpool] at h2 <;> cases h2
    · intro h
      rcases h with h | h <;> rw [hpool] at h <;> cases h
    · intro h
      rcases h with h | h <;> rw [hpool] at h <;> cases h
  | finish_bug i hrunp hpool =>
    have hmem : Phase.runningWork ∈ c.procs := List.getElem?_mem hrunp
    exact absurd (hrun _ hmem rfl) hpool
  | exitDone hflightT =>
    have hcases := hflight hflightT
    refine ⟨?_, ?_, ?_, ?_, ?_, ?_⟩
    · show c.isNeededBy = _
      rw [hcount, countP_map_exitWaiterDone]
    · intro p hp hpr
      rw [hpr] at hp
      have hmem := runningWork_mem_of_map_exitWaiterDone c.procs hp
      have hr := hrun _ hmem rfl
      rcases hcases with h2 | h2 <;> rw [hr] at h2 <;> cases h2
    · intro g hg
      exact hgen g (waitingInit_mem_of_map_exitWaiterDone c.procs g hg)
    · intro h
      simp at h
    · intro h
      rcases hcases with h2 | h2 <;> rw [h2] at h <;> simp [poolAfterExit] at h
    · intro h
      show (c.procs.map exitWaiterDone).countP isActive = 0
      rw [countP_map_exitWaiterDone]
      rcases hcases with h2 | h2
      · exact hquiesce (Or.inr h2)
      · rw [h2] at h
        simp [poolAfterExit] at h

/-- Every reachable configuration satisfies the invariant. -/
theorem inv_reachable (n : Nat) (c : Config) (h : Reachable n c) : Inv c := by
  induction h with
  | refl => exact inv_initConfig n
  | tail _ hstep ih =>
    rcases hstep with ⟨l, hstep⟩
    exact inv_step _ _ _ ih hstep

/-- C1: for every finite sequence of interleaved calls to the runner
returned by `WithThreadPool` (src/workers.cjs) or `CreateThreadPoolRunner`
(src/threadpool-runner.cjs), the caller counter is never negative at any
step, and `exitThreadPool` is invoked exactly at those steps where the
counter transitions from 1 to 0: the pool is torn down if and only if the
last active caller finishes. -/
theorem claim_C1_callerCount (n : Nat) (c : Config) (hreach : Reachable n c) :
    0 ≤ c.isNeededBy ∧
      ∀ (l : Label) (c' : Config), Step c l c' →
        (l.exitCall = true ↔ c.isNeededBy = 1 ∧ c'.isNeededBy = 0) := by
  have hinv := inv_reachable n c hreach
  have hnonneg : 0 ≤ c.isNeededBy := by
    rw [hinv.counter_eq]; exact_mod_cast Nat.zero_le _
  refine ⟨hnonneg, ?_⟩
  intro l c' hstep
  cases hstep with
  | enter_none i hidle hpool =>
    constructor
    · intro h; cases h
    · rintro ⟨h1, h2⟩
      have h2b : c.isNeededBy + 1 = 0 := h2
      omega
  | enter_initializing i b hidle hpool =>
    constructor
    · intro h; cases h
    · rintro ⟨h1, h2⟩
      have h2b : c.isNeededBy + 1 = 0 := h2
      omega
  | enter_running i hidle hpool =>
    constructor
    · intro h; cases h
    · rintro ⟨h1, h2⟩
      have h2b : c.isNeededBy + 1 = 0 := h2
      omega
  | enter_exiting i hidle hpool =>
    constructor
    · intro h; cases h
    · rintro ⟨h1, h2⟩
      have h2b : c.isNeededBy + 1 = 0 := h2
      omega
  | initDone hpool =>
    constructor
    · intro h; cases h
    · rintro ⟨h1, h2⟩
      have h2b : c.isNeededBy = 0 := h2
      omega
  | finish_last i hrunp hpool hcnt =>
    have hmem : Phase.runningWork ∈ c.procs := List.getElem?_mem hrunp
    have hpos : 0 < c.procs.countP isActive :=
      countP_pos_of_mem_active hmem (by simp [isActive])
    have heq := hinv.counter_eq
    constructor
    · intro _
      refine ⟨by omega, ?_⟩
      show c.isNeededBy - 1 = 0
      omega
    · intro _; rfl
  | finish_more i hrunp hpool hcnt =>
    constructor
    · intro h; cases h
    · rintro ⟨h1, h2⟩
      omega
  | finish_bug i hrunp hpool =>
    exact absurd (hinv.run_running _ (List.getElem?_mem hrunp) rfl) hpool
  | exitDone hflightT =>
    constructor
    · intro h
      have h2 := hinv.flight_pool hflightT
      exfalso
      rcases h2 with h2 | h2 <;> rw [h2] at h <;> simp [exitChainsInit] at h
    · rintro ⟨h1, h2⟩
      have h2b : c.isNeededBy = 0 := h2
      omega

/-- C7: a submission arriving while the pool state is `exiting` chains
behind the in-flight exit: it invokes no `initThreadPool` in its own step
and starts no run; `initThreadPool` is invoked under a pending exit only in
the very step in which that exit promise resolves; and a run callback only
ever begins against a pool that is `running` or becomes `running` in that
same step by completing a started initialization. -/
theorem claim_C7_exiting_resubmission (n : Nat) (c : Config) (hreach : Reachable n c) :
    (∀ (l : Label) (c' : Config), Step c l c' → c.pool = PoolSt.psExiting →
        c'.isNeededBy = c.isNeededBy + 1 →
        l.initCall = false ∧ l.begun = [] ∧
        c'.pool = PoolSt.psInitializing false ∧ c'.exitInFlight = true) ∧
    (∀ (l : Label) (c' : Config), Step c l c' → l.initCall = true →
        c.exitInFlight = false ∨
          (c.pool = PoolSt.psInitializing false ∧ c'.exitInFlight = false)) ∧
    (∀ (l : Label) (c' : Config), Step c l c' → ∀ i ∈ l.begun,
        c.pool = PoolSt.psRunning ∨
          (c.pool = PoolSt.psInitializing true ∧ c'.pool = PoolSt.psRunning)) := by
  have hinv := inv_reachable n c hreach
  refine ⟨?_, ?_, ?_⟩
  · intro l c' hstep hpool hinc
    cases hstep with
    | enter_none i hidle hp => rw [hp] at hpool; cases hpool
    | enter_initializing i b hidle hp => rw [hp] at hpool; cases hpool
    | enter_running i hidle hp => rw [hp] at hpool; cases hpool
    | enter_exiting i hidle hp =>
      exact ⟨rfl, rfl, rfl, hinv.pool_flight (Or.inl hp)⟩
    | initDone hp => rw [hp] at hpool; cases hpool
    | finish_last i hrunp hp hcnt => rw [hp] at hpool; cases hpool
    | finish_more i hrunp hp hcnt => rw [hp] at hpool; cases hpool
    | finish_bug i hrunp hp =>
      have h2 : c.isNeededBy - 1 = c.isNeededBy + 1 := hinc
      omega
    | exitDone hflightT =>
      have h2 : c.isNeededBy = c.isNeededBy + 1 := hinc
      omega
  · intro l c' hstep hinit
    cases hstep with
    | enter_none i hidle hp =>
      left
      rcases Bool.eq_false_or_eq_true c.exitInFlight with h | h
      · rcases hinv.flight_pool h with h2 | h2 <;> rw [hp] at h2 <;> cases h2
      · exact h
    | enter_initializing i b hidle hp => cases hinit
    | enter_running i hidle hp => cases hinit
    | enter_exiting i hidle hp => cases hinit
    | initDone hp => cases hinit
    | finish_last i hrunp hp hcnt => cases hinit
    | finish_more i hrunp hp hcnt => cases hinit
    | finish_bug i hrunp hp => cases hinit
    | exitDone hflightT =>
      right
      have hinit2 : exitChainsInit c.pool = true := hinit
      refine ⟨?_, rfl⟩
      cases hcp : c.pool with
      | psInitializing b =>
        cases b
        · rfl
        · rw [hcp] at hinit2; simp [exitChainsInit] at hinit2
      | psNone => rw [hcp] at hinit2; simp [exitChainsInit] at hinit2
      | psRunning => rw [hcp] at hinit2; simp [exitChainsInit] at hinit2
      | psExiting => rw [hcp] at hinit2; simp [exitChainsInit] at hinit2
  · intro l c' hstep i hi
    cases hstep with
    | enter_none j hidle hp => cases hi
    | enter_initializing j b hidle hp => cases hi
    | enter_running j hidle hp => exact Or.inl hp
    | enter_exiting j hidle hp => cases hi
    | initDone hp => exact Or.inr ⟨hp, rfl⟩
    | finish_last j hrunp hp hcnt => cases hi
    | finish_more j hrunp hp hcnt => cases hi
    | finish_bug j hrunp hp => cases hi
    | exitDone hflightT => cases hi

/-- C8: while an initialization is in flight, an additional submission
performs no second `initThreadPool` call and suspends on the same (current)
init promise every other waiting caller awaits; all suspended callers await
one and the same init promise; and `initThreadPool` is never invoked while
a started initialization is already in flight. -/
theorem claim_C8_shared_init (n : Nat) (c : Config) (hreach : Reachable n c) :
    (∀ (b : Bool) (l : Label) (c' : Config), Step c l c' →
        c.pool = PoolSt.psInitializing b →
        c'.isNeededBy = c.isNeededBy + 1 →
        l.initCall = false ∧ c'.initGen = c.initGen ∧
          ∃ i, c.procs[i]? = some Phase.idle ∧
            c'.procs = c.procs.set i (Phase.waitingInit c.initGen)) ∧
    (∀ g g' : Nat, Phase.waitingInit g ∈ c.procs →
        Phase.waitingInit g' ∈ c.procs → g = g') ∧
    (∀ (l : Label) (c' : Config), Step c l c' → l.initCall = true →
        c.pool ≠ PoolSt.psInitializing true) := by
  have hinv := inv_reachable n c hreach
  refine ⟨?_, ?_, ?_⟩
  · intro b l c' hstep hpool hinc
    cases hstep with
    | enter_none i hidle hp => rw [hp] at hpool; cases hpool
    | enter_initializing i b2 hidle hp =>
      exact ⟨rfl, rfl, i, hidle, rfl⟩
    | enter_running i hidle hp => rw [hp] at hpool; cases hpool
    | enter_exiting i hidle hp => rw [hp] at hpool; cases hpool
    | initDone hp =>
      have h2 : c.isNeededBy = c.isNeededBy + 1 := hinc
      omega
    | finish_last i hrunp hp hcnt => rw [hp] at hpool; cases hpool
    | finish_more i hrunp hp hcnt => rw [hp] at hpool; cases hpool
    | finish_bug i hrunp hp =>
      have h2 : c.isNeededBy - 1 = c.isNeededBy + 1 := hinc
      omega
    | exitDone hflightT =>
      have h2 : c.isNeededBy = c.isNeededBy + 1 := hinc
      omega
  · intro g g' hg hg'
    rw [hinv.gen_current g hg, hinv.gen_current g' hg']
  · intro l c' hstep hinit
    cases hstep with
    | enter_none i hidle hp =>
      rw [hp]; intro hq; cases hq
    | enter_initializing i b hidle hp => cases hinit
    | enter_running i hidle hp => cases hinit
    | enter_exiting i hidle hp => cases hinit
    | initDone hp => cases hinit
    | finish_last i hrunp hp hcnt => cases hinit
    | finish_more i hrunp hp hcnt => cases hinit
    | finish_bug i hrunp hp => cases hinit
    | exitDone hflightT =>
      have hinit2 : exitChainsInit c.pool = true := hinit
      intro hq
      rw [hq] at hinit2
      simp [exitChainsInit] at hinit2

/-- Reachable configuration after one caller has entered a fresh two-caller
runner: pool initializing, caller 0 suspended on the init promise. -/
def cfgEnter : Config :=
  { isNeededBy := 1, pool := PoolSt.psInitializing true, exitInFlight := false,
    initGen := 1, procs := [Phase.waitingInit 1, Phase.idle] }

/-- After the init promise resolves: caller 0 is inside `run()`. -/
def cfgRun : Config :=
  { isNeededBy := 1, pool := PoolSt.psRunning, exitInFlight := false,
    initGen := 1, procs := [Phase.runningWork, Phase.idle] }

/-- After caller 0 finishes as the last caller: teardown in flight. -/
def cfgExit : Config :=
  { isNeededBy := 0, pool := PoolSt.psExiting, exitInFlight := true,
    initGen := 1, procs := [Phase.waitingExit, Phase.idle] }

theorem step_to_cfgEnter : Step (initConfig 2) ⟨true, false, []⟩ cfgEnter :=
  Step.enter_none (initConfig 2) 0 rfl rfl

theorem step_to_cfgRun : Step cfgEnter ⟨false, false, [0]⟩ cfgRun :=
  Step.initDone cfgEnter rfl

theorem step_to_cfgExit : Step cfgRun ⟨false, true, []⟩ cfgExit :=
  Step.finish_last cfgRun 0 rfl rfl (by decide)

theorem cfgEnter_reach : Reachable 2 cfgEnter :=
  Relation.ReflTransGen.single ⟨_, step_to_cfgEnter⟩

theorem cfgRun_reach : Reachable 2 cfgRun :=
  Relation.ReflTransGen.tail cfgEnter_reach ⟨_, step_to_cfgRun⟩

theorem cfgExit_reach : Reachable 2 cfgExit :=
  Relation.ReflTransGen.tail cfgRun_reach ⟨_, step_to_cfgExit⟩

/-- Witness for C1 at the concrete reachable configuration `cfgRun`. -/
theorem claim_C1_callerCount_witness :
    0 ≤ cfgRun.isNeededBy ∧
      ∀ (l : Label) (c' : Config), Step cfgRun l c' →
        (l.exitCall = true ↔ cfgRun.isNeededBy = 1 ∧ c'.isNeededBy = 0) :=
  claim_C1_callerCount 2 cfgRun cfgRun_reach

/-- Witness for C7 at the concrete reachable configuration `cfgExit`
(teardown in flight). -/
theorem claim_C7_exiting_resubmission_witness :
    (∀ (l : Label) (c' : Config), Step cfgExit l c' → cfgExit.pool = PoolSt.psExiting →
        c'.isNeededBy = cfgExit.isNeededBy + 1 →
        l.initCall = false ∧ l.begun = [] ∧
        c'.pool = PoolSt.psInitializing false ∧ c'.exitInFlight = true) ∧
    (∀ (l : Label) (c' : Config), Step cfgExit l c' → l.initCall = true →
        cfgExit.exitInFlight = false ∨
          (cfgExit.pool = PoolSt.psInitializing false ∧ c'.exitInFlight = false)) ∧
    (∀ (l : Label) (c' : Config), Step cfgExit l c' → ∀ i ∈ l.begun,
        cfgExit.pool = PoolSt.psRunning ∨
          (cfgExit.pool = PoolSt.psInitializing true ∧ c'.pool = PoolSt.psRunning)) :=
  claim_C7_exiting_resubmission 2 cfgExit cfgExit_reach

/-- Witness for C8 at the concrete reachable configuration `cfgEnter`
(initialization in flight). -/
theorem claim_C8_shared_init_witness :
    (∀ (b : Bool) (l : Label) (c' : Config), Step cfgEnter l c' →
        cfgEnter.pool = PoolSt.psInitializing b →
        c'.isNeededBy = cfgEnter.isNeededBy + 1 →
        l.initCall = false ∧ c'.initGen = cfgEnter.initGen ∧
          ∃ i, cfgEnter.procs[i]? = some Phase.idle ∧
            c'.procs = cfgEnter.procs.set i (Phase.waitingInit cfgEnter.initGen)) ∧
    (∀ g g' : Nat, Phase.waitingInit g ∈ cfgEnter.procs →
        Phase.waitingInit g' ∈ cfgEnter.procs → g = g') ∧
    (∀ (l : Label) (c' : Config), Step cfgEnter l c' → l.initCall = true →
        cfgEnter.pool ≠ PoolSt.psInitializing true) :=
  claim_C8_shared_init 2 cfgEnter cfgEnter_reach

end Runner

/-- C9: calling `ThreadpoolManager.execute` before the host has signaled
readiness throws `ThreadPool not ready` and leaves the manager state
completely unchanged: no request id is allocated, no pending entry is
added, no message is posted. -/
theorem claim_C9_execute_not_ready (V : Type) (s : MgrA.MState V) (functionName : String)
    (h : s.isThreadPoolHostReady = false) :
    MgrA.execute s functionName = (s, Except.error "ThreadPool not ready") := by
  simp [MgrA.execute, h]

/-- Concrete manager state with the ready flag still false. -/
def sNotReady : MgrA.MState Nat :=
  { isThreadPoolHostReady := false, nextRequestId := 5, pendingRequests := [],
    posted := [], settled := [], lastHeartbeat := none }

/-- Witness for C9 at a concrete not-ready manager state. -/
theorem claim_C9_execute_not_ready_witness :
    sNotReady.isThreadPoolHostReady = false ∧
      MgrA.execute sNotReady "multithreadedSum"
        = (sNotReady, Except.error "ThreadPool not ready") :=
  ⟨rfl, claim_C9_execute_not_ready Nat sNotReady "multithreadedSum" rfl⟩

/-- Concrete ready manager state with an empty pending map. -/
def sReadyEmpty : MgrA.MState Nat :=
  { isThreadPoolHostReady := true, nextRequestId := 3, pendingRequests := [],
    posted := [], settled := [], lastHeartbeat := none }

/-- Counterexample to C5 as stated: delivering a result message for the
unknown request id 1 to a manager with an empty pending map is NOT a no-op
that merely logs a warning — the handler does not complete normally:
`pendingRequests.get` yields `undefined` and the unguarded
`request.resolve` access throws. -/
theorem claim_C5_counterexample :
    ¬ MgrA.handleWorkerMessage sReadyEmpty (MgrA.HostMsg.result 1 true 7 "")
        = (sReadyEmpty, none) := by
  decide

/-- C5 amended: delivering a result message whose id is not in the
pending-request map settles no promise and leaves all manager state
unchanged, but instead of completing with only a logged warning the handler
throws a TypeError from the unguarded dereference — in both the
threadpool-manager.cjs handler and the part_010 `wasmResult` handler. -/
theorem claim_C5_unknown_id_faults (V : Type) (s : MgrA.MState V) (t : MgrB.MState V)
    (requestId : Nat) (success : Bool) (result : V) (error : String)
    (hs : requestId ∉ s.pendingRequests) (ht : requestId ∉ t.pendingWasmRequests) :
    MgrA.handleWorkerMessage s (MgrA.HostMsg.result requestId success result error)
      = (s, some "TypeError: request is undefined") ∧
    MgrB.handleWasmResult t requestId success result error
      = (t, some "TypeError: wasmRequest is undefined") := by
  constructor
  · simp [MgrA.handleWorkerMessage, hs]
  · simp [MgrB.handleWasmResult, ht]

/-- Concrete part_010 manager state with an empty pending map. -/
def tReadyEmpty : MgrB.MState Nat :=
  { timeout := 5000, poolState := MgrB.PoolState.statusRunning, nextRequestId := 3,
    pendingWasmRequests := [], settled := [], posted := [], lastHeartbeat := 0,
    heartbeatMonitorOn := true, workerChannelsOpen := 2, hostWorkerLive := true }

/-- Witness for the amended C5 at concrete empty-pending manager states. -/
theorem claim_C5_unknown_id_faults_witness :
    (1 ∉ sReadyEmpty.pendingRequests) ∧ (1 ∉ tReadyEmpty.pendingWasmRequests) ∧
    (MgrA.handleWorkerMessage sReadyEmpty (MgrA.HostMsg.result 1 true 7 "")
        = (sReadyEmpty, some "TypeError: request is undefined") ∧
      MgrB.handleWasmResult tReadyEmpty 1 true 7 ""
        = (tReadyEmpty, some "TypeError: wasmRequest is undefined")) :=
  ⟨by decide, by decide,
    claim_C5_unknown_id_faults Nat sReadyEmpty tReadyEmpty 1 true 7 ""
      (by decide) (by decide)⟩

/-- C2: at a heartbeat-monitor poll where more than `timeout` ms have
elapsed since the last recorded heartbeat, the failure handler rejects
every request in the pending map with a failure error, clears the map,
stops the monitor, and after the triggered shutdown completes the pool
state is `none`; at a poll within the timeout nothing changes, so the
failure path runs at the first poll after the silence window. -/
theorem claim_C2_heartbeat_timeout (V : Type) (s : MgrB.MState V) (now : Nat)
    (hlate : s.timeout < now - s.lastHeartbeat) :
    (MgrB.heartbeatMonitorTick s now).poolState = MgrB.PoolState.statusNone ∧
    (MgrB.heartbeatMonitorTick s now).pendingWasmRequests = [] ∧
    (MgrB.heartbeatMonitorTick s now).heartbeatMonitorOn = false ∧
    (∀ id ∈ s.pendingWasmRequests,
      (id, MgrA.Outcome.err "Worker failed: Heartbeat timeout failure")
        ∈ (MgrB.heartbeatMonitorTick s now).settled) ∧
    (∀ now2 : Nat, now2 - s.lastHeartbeat ≤ s.timeout →
      MgrB.heartbeatMonitorTick s now2 = s) := by
  have htick : MgrB.heartbeatMonitorTick s now
      = MgrB.handleWorkerFailure s "Heartbeat timeout failure" := by
    simp [MgrB.heartbeatMonitorTick, hlate]
  refine ⟨?_, ?_, ?_, ?_, ?_⟩
  · rw [htick]
    simp [MgrB.handleWorkerFailure, MgrB.shutdown]
  · rw [htick]
    simp [MgrB.handleWorkerFailure, MgrB.shutdown]
    split <;> rfl
  · rw [htick]
    simp [MgrB.handleWorkerFailure, MgrB.shutdown]
    split <;> rfl
  · intro id hid
    rw [htick]
    have hsettled : (MgrB.handleWorkerFailure s "Heartbeat timeout failure").settled
        = s.settled ++ s.pendingWasmRequests.map
            (fun i => (i, MgrA.Outcome.err "Worker failed: Heartbeat timeout failure")) := by
      simp [MgrB.handleWorkerFailure, MgrB.shutdown]
      split <;> rfl
    rw [hsettled]
    exact List.mem_append_right _ (List.mem_map.mpr ⟨id, hid, rfl⟩)
  · intro now2 hin
    simp [MgrB.heartbeatMonitorTick]
    omega

/-- Concrete part_010 manager state with three pending requests and a stale
heartbeat. -/
def tPending : MgrB.MState Nat :=
  { timeout := 5000, poolState := MgrB.PoolState.statusRunning, nextRequestId := 7,
    pendingWasmRequests := [4, 5, 6], settled := [], posted := [], lastHeartbeat := 1000,
    heartbeatMonitorOn := true, workerChannelsOpen := 2, hostWorkerLive := true }

/-- Witness for C2: a poll at t=7000 with last heartbeat at t=1000 and a
5000 ms timeout fires the failure path. -/
theorem claim_C2_heartbeat_timeout_witness :
    tPending.timeout < 7000 - tPending.lastHeartbeat ∧
    ((MgrB.heartbeatMonitorTick tPending 7000).poolState = MgrB.PoolState.statusNone ∧
      (MgrB.heartbeatMonitorTick tPending 7000).pendingWasmRequests = [] ∧
      (MgrB.heartbeatMonitorTick tPending 7000).heartbeatMonitorOn = false ∧
      (∀ id ∈ tPending.pendingWasmRequests,
        (id, MgrA.Outcome.err "Worker failed: Heartbeat timeout failure")
          ∈ (MgrB.heartbeatMonitorTick tPending 7000).settled) ∧
      (∀ now2 : Nat, now2 - tPending.lastHeartbeat ≤ tPending.timeout →
        MgrB.heartbeatMonitorTick tPending now2 = tPending)) :=
  ⟨by decide, claim_C2_heartbeat_timeout Nat tPending 7000 (by decide)⟩

/-- Counterexample to C10 as stated: with the same lifecycle hooks and a
run callback resolving to 42, the two runners are not observationally
equivalent — the promise returned by the workers.cjs runner resolves with
42 while the promise returned by the threadpool-runner.cjs runner resolves
with `undefined` (its body never assigns `result`). -/
theorem claim_C10_counterexample :
    ¬ Single.workersSingleCall (42 : Nat) = Single.runnerSingleCall 42 := by
  decide

/-- C10 amended: the two runners invoke the lifecycle hooks at the same
points and drive the pool through the same states, but their returned
promises differ: `WithThreadPool` resolves with the value of `run` while
`CreateThreadPoolRunner` always resolves with `undefined`. -/
theorem claim_C10_lifecycle_equiv (V : Type) (v : V) :
    (Single.workersSingleCall v).1 = (Single.runnerSingleCall v).1 ∧
    (Single.workersSingleCall v).2.1 = (Single.runnerSingleCall v).2.1 ∧
    (Single.workersSingleCall v).2.2 = some v ∧
    (Single.runnerSingleCall v).2.2 = none :=
  ⟨rfl, rfl, rfl, rfl⟩

namespace MgrB

theorem shutdown_nextRequestId (V : Type) (s : MState V) :
    (shutdown s).nextRequestId = s.nextRequestId := by
  unfold shutdown
  dsimp only
  split <;> rfl

theorem handleWorkerFailure_nextRequestId (V : Type) (s : MState V) (e : String) :
    (handleWorkerFailure s e).nextRequestId = s.nextRequestId := by
  unfold handleWorkerFailure
  rw [shutdown_nextRequestId]

theorem heartbeatMonitorTick_nextRequestId (V : Type) (s : MState V) (now : Nat) :
    (heartbeatMonitorTick s now).nextRequestId = s.nextRequestId := by
  unfold heartbeatMonitorTick
  dsimp only
  split
  · rw [handleWorkerFailure_nextRequestId]
  · rfl

theorem handleWasmResult_nextRequestId (V : Type) (s : MState V) (callId : Nat)
    (success : Bool) (result : V) (error : String) :
    (handleWasmResult s callId success result error).1.nextRequestId = s.nextRequestId := by
  unfold handleWasmResult
  split <;> rfl

/-- No operation ever decreases the id counter. -/
theorem applyOp_nextRequestId (V : Type) (s : MState V) (op : MgrOp V) :
    s.nextRequestId ≤ (applyOp s op).1.nextRequestId := by
  cases op with
  | proxyCall fn =>
    show s.nextRequestId ≤ s.nextRequestId + 1
    omega
  | wasmResult callId success result error =>
    show s.nextRequestId ≤ (handleWasmResult s callId success result error).1.nextRequestId
    rw [handleWasmResult_nextRequestId]
  | heartbeat ts => exact Nat.le_refl _
  | workerFailure e =>
    show s.nextRequestId ≤ (handleWorkerFailure s e).nextRequestId
    rw [handleWorkerFailure_nextRequestId]
  | monitorTick now =>
    show s.nextRequestId ≤ (heartbeatMonitorTick s now).nextRequestId
    rw [heartbeatMonitorTick_nextRequestId]
  | beginInit => exact Nat.le_refl _
  | initSuccess => exact Nat.le_refl _
  | initFailure => exact Nat.le_refl _
  | beginExit => exact Nat.le_refl _

/-- The only allocating operation is a proxy call; it returns the current
counter and bumps it. -/
theorem applyOp_alloc (V : Type) (s : MState V) (op : MgrOp V) (s₁ : MState V) (id : Nat)
    (h : applyOp s op = (s₁, some id)) :
    id = s.nextRequestId ∧ s₁.nextRequestId = s.nextRequestId + 1 := by
  cases op <;> simp [applyOp, wasmProxyCall] at h
  obtain ⟨h1, h2⟩ := h
  refine ⟨h2.symm, ?_⟩
  rw [← h1]

/-- Every id allocated after state `s` is at least `s.nextRequestId`, and
the counter never decreases across a run. -/
theorem runOps_lb (V : Type) (s : MState V) (ops : List (MgrOp V)) :
    (∀ id ∈ (runOps s ops).2, s.nextRequestId ≤ id) ∧
      s.nextRequestId ≤ (runOps s ops).1.nextRequestId := by
  induction ops generalizing s with
  | nil => simp [runOps]
  | cons op rest ih =>
    cases hop : applyOp s op with
    | mk s₁ alloc =>
      have hle : s.nextRequestId ≤ s₁.nextRequestId := by
        have h2 := applyOp_nextRequestId V s op
        rw [hop] at h2
        exact h2
      cases alloc with
      | none =>
        have h2 := ih s₁
        have hl : (runOps s (op :: rest)).2 = (runOps s₁ rest).2 := by
          simp [runOps, hop]
        have hst : (runOps s (op :: rest)).1 = (runOps s₁ rest).1 := by
          simp [runOps, hop]
        constructor
        · intro id hid
          rw [hl] at hid
          exact le_trans hle (h2.1 id hid)
        · rw [hst]
          exact le_trans hle h2.2
      | some id0 =>
        obtain ⟨hid0, hnext⟩ := applyOp_alloc V s op s₁ id0 hop
        have h2 := ih s₁
        have hl : (runOps s (op :: rest)).2 = id0 :: (runOps s₁ rest).2 := by
          simp [runOps, hop]
        have hst : (runOps s (op :: rest)).1 = (runOps s₁ rest).1 := by
          simp [runOps, hop]
        constructor
        · intro id hid
          rw [hl] at hid
          rcases List.mem_cons.mp hid with h | h
          · omega
          · have h3 := h2.1 id h
            omega
        · rw [hst]
          have h3 := h2.2
          omega

/-- The allocation log of a run is strictly increasing. -/
theorem runOps_pairwise (V : Type) (s : MState V) (ops : List (MgrOp V)) :
    (runOps s ops).2.Pairwise (· < ·) := by
  induction ops generalizing s with
  | nil => simp [runOps]
  | cons op rest ih =>
    cases hop : applyOp s op with
    | mk s₁ alloc =>
      cases alloc with
      | none =>
        have hl : (runOps s (op :: rest)).2 = (runOps s₁ rest).2 := by
          simp [runOps, hop]
        rw [hl]
        exact ih s₁
      | some id0 =>
        obtain ⟨hid0, hnext⟩ := applyOp_alloc V s op s₁ id0 hop
        have hlb := (runOps_lb V s₁ rest).1
        have hl : (runOps s (op :: rest)).2 = id0 :: (runOps s₁ rest).2 := by
          simp [runOps, hop]
        rw [hl]
        refine List.Pairwise.cons ?_ (ih s₁)
        intro id hid
        have h3 := hlb id hid
        omega

end MgrB

namespace MgrA

/-- The manager state after one successful `execute` posting `fn` (the
record produced in the ready branch of `execute`). -/
def afterExecute (s : MState V) (fn : String) : MState V :=
  { s with
      nextRequestId := s.nextRequestId + 1,
      pendingRequests := s.pendingRequests ++ [s.nextRequestId],
      posted := s.posted ++ [(s.nextRequestId, fn)] }

theorem execute_ready (V : Type) (s : MState V) (fn : String)
    (h : s.isThreadPoolHostReady = true) :
    execute s fn = (afterExecute s fn, Except.ok s.nextRequestId) := by
  simp [execute, afterExecute, h]

theorem executeAll_cons_ready (V : Type) (s : MState V) (fn : String)
    (rest : List String) (h : s.isThreadPoolHostReady = true) :
    executeAll s (fn :: rest)
      = ((executeAll (afterExecute s fn) rest).1,
          s.nextRequestId :: (executeAll (afterExecute s fn) rest).2) := by
  simp [executeAll, execute_ready V s fn h]

/-- Batch `executeAll` on a ready manager allocates exactly the ids
`nextRequestId, nextRequestId+1, ...`, appends them to the pending map,
settles nothing, and keeps the manager ready. -/
theorem executeAll_spec (V : Type) (s : MState V) (fns : List String)
    (h : s.isThreadPoolHostReady = true) :
    (executeAll s fns).2 = List.range' s.nextRequestId fns.length ∧
    (executeAll s fns).1.pendingRequests
      = s.pendingRequests ++ List.range' s.nextRequestId fns.length ∧
    (executeAll s fns).1.settled = s.settled ∧
    (executeAll s fns).1.isThreadPoolHostReady = true := by
  induction fns generalizing s with
  | nil => exact ⟨rfl, by simp [executeAll], rfl, h⟩
  | cons fn rest ih =>
    obtain ⟨h1, h2, h3, h4⟩ := ih (afterExecute s fn) h
    rw [executeAll_cons_ready V s fn rest h]
    refine ⟨?_, ?_, ?_, ?_⟩
    · show s.nextRequestId :: (executeAll (afterExecute s fn) rest).2 = _
      rw [h1]
      rfl
    · show (executeAll (afterExecute s fn) rest).1.pendingRequests = _
      rw [h2]
      show s.pendingRequests ++ [s.nextRequestId]
          ++ List.range' (s.nextRequestId + 1) rest.length = _
      rw [List.append_assoc]
      rfl
    · show (executeAll (afterExecute s fn) rest).1.settled = _
      rw [h3]
      rfl
    · show (executeAll (afterExecute s fn) rest).1.isThreadPoolHostReady = true
      rw [h4]

end MgrA

/-- C3: request-id allocations of one manager instance — whether through
`execute` (threadpool-manager.cjs) or through the wasm proxy (part_010) —
are strictly increasing over any interleaving of manager operations,
including full re-initialization cycles, so no id is ever allocated
twice. -/
theorem claim_C3_ids_strictly_increasing (V : Type) (s : MgrB.MState V)
    (ops : List (MgrB.MgrOp V)) (t : MgrA.MState V) (fns : List String)
    (hready : t.isThreadPoolHostReady = true) :
    (MgrB.runOps s ops).2.Pairwise (· < ·) ∧ (MgrB.runOps s ops).2.Nodup ∧
    (MgrA.executeAll t fns).2.Pairwise (· < ·) ∧ (MgrA.executeAll t fns).2.Nodup := by
  have hpw := MgrB.runOps_pairwise V s ops
  have hids := (MgrA.executeAll_spec V t fns hready).1
  refine ⟨hpw, hpw.imp Nat.ne_of_lt, ?_, ?_⟩
  · rw [hids]
    exact List.pairwise_lt_range' t.nextRequestId fns.length
  · rw [hids]
    exact List.nodup_range' t.nextRequestId fns.length

/-- Concrete op sequence: two proxy allocations, a failure-driven
re-initialization cycle, then two more allocations. -/
def demoOps : List (MgrB.MgrOp Nat) :=
  [MgrB.MgrOp.beginInit, MgrB.MgrOp.initSuccess,
   MgrB.MgrOp.proxyCall "multithreadedSum", MgrB.MgrOp.proxyCall "multithreadedSum",
   MgrB.MgrOp.workerFailure "Heartbeat timeout failure",
   MgrB.MgrOp.beginInit, MgrB.MgrOp.initSuccess,
   MgrB.MgrOp.proxyCall "multithreadedSum", MgrB.MgrOp.proxyCall "multithreadedSum"]

/-- Witness for C3: a concrete run across a re-initialization cycle plus a
concrete batch of `execute` calls. -/
theorem claim_C3_ids_strictly_increasing_witness :
    sReadyEmpty.isThreadPoolHostReady = true ∧
    ((MgrB.runOps (V := Nat) tPending demoOps).2.Pairwise (· < ·) ∧
      (MgrB.runOps (V := Nat) tPending demoOps).2.Nodup ∧
      (MgrA.executeAll sReadyEmpty ["a", "b", "c"]).2.Pairwise (· < ·) ∧
      (MgrA.executeAll sReadyEmpty ["a", "b", "c"]).2.Nodup) :=
  ⟨rfl, claim_C3_ids_strictly_increasing Nat tPending demoOps sReadyEmpty
    ["a", "b", "c"] rfl⟩

namespace MgrA

/-- Delivering one success message per pending id (ids pairwise distinct,
all pending) settles each promise, in delivery order, with exactly the
result carried by the message bearing its id. -/
theorem deliverAll_pairs (V : Type) (s : MState V) (ids : List Nat) (f : Nat → V)
    (hsub : ∀ id ∈ ids, id ∈ s.pendingRequests) (hnodup : ids.Nodup) :
    (deliverAll s (ids.map fun i => HostMsg.result i true (f i) "")).settled
      = s.settled ++ (ids.map fun i => (i, Outcome.ok (f i))) := by
  induction ids generalizing s with
  | nil => simp [deliverAll]
  | cons a rest ih =>
    have ha : a ∈ s.pendingRequests := hsub a (List.mem_cons_self a rest)
    have hstep : (handleWorkerMessage s (HostMsg.result a true (f a) "")).1
        = { s with
              pendingRequests := s.pendingRequests.erase a,
              settled := s.settled ++ [(a, Outcome.ok (f a))] } := by
      simp [handleWorkerMessage, ha]
    have hred : deliverAll s ((a :: rest).map fun i => HostMsg.result i true (f i) "")
        = deliverAll (handleWorkerMessage s (HostMsg.result a true (f a) "")).1
            (rest.map fun i => HostMsg.result i true (f i) "") := rfl
    rw [hred, hstep]
    rw [ih { s with
              pendingRequests := s.pendingRequests.erase a,
              settled := s.settled ++ [(a, Outcome.ok (f a))] }
          ?_ (List.nodup_cons.mp hnodup).2]
    · simp
    · intro id hid
      have hne : id ≠ a := by
        intro he
        subst he
        exact (List.nodup_cons.mp hnodup).1 hid
      show id ∈ s.pendingRequests.erase a
      exact (List.mem_erase_of_ne hne).mpr (hsub id (List.mem_cons_of_mem a hid))

/-- Looking up an id in the association list built from a duplicate-free id
list finds its own pair. -/
theorem lookup_map_pairs (V : Type) (ids : List Nat) (g : Nat → Outcome V) (id : Nat)
    (hnodup : ids.Nodup) (hmem : id ∈ ids) :
    List.lookup id (ids.map fun i => (i, g i)) = some (g id) := by
  induction ids with
  | nil => cases hmem
  | cons a rest ih =>
    rcases List.mem_cons.mp hmem with h | h
    · subst h
      simp [List.lookup]
    · have hne : id ≠ a := by
        intro he
        subst he
        exact (List.nodup_cons.mp hnodup).1 h
      have hbeq : (id == a) = false := by
        simp [hne]
      simp only [List.map_cons, List.lookup, hbeq]
      exact ih (List.nodup_cons.mp hnodup).2 h

end MgrA

/-- C4: if N execute calls are issued concurrently on a fresh ready manager
and the host posts exactly one result message per allocated request id, in
any order, then each caller's promise resolves with precisely the result
carried by the message bearing that caller's own id — pairing is by id,
independent of response arrival order. -/
theorem claim_C4_results_paired_by_id (V : Type) (t : MgrA.MState V)
    (fns : List String) (f : Nat → V) (order : List Nat)
    (hready : t.isThreadPoolHostReady = true)
    (hpend : t.pendingRequests = [])
    (hsettled : t.settled = [])
    (hperm : order.Perm (MgrA.executeAll t fns).2) :
    ∀ id ∈ (MgrA.executeAll t fns).2,
      List.lookup id
        ((MgrA.deliverAll (MgrA.executeAll t fns).1
            (order.map fun i => MgrA.HostMsg.result i true (f i) "")).settled)
        = some (MgrA.Outcome.ok (f id)) := by
  obtain ⟨hids, hpending, hset, _⟩ := MgrA.executeAll_spec V t fns hready
  have hidsnodup : (MgrA.executeAll t fns).2.Nodup := by
    rw [hids]
    exact List.nodup_range' t.nextRequestId fns.length
  have hordnodup : order.Nodup := hperm.nodup_iff.mpr hidsnodup
  have hsub : ∀ id ∈ order, id ∈ (MgrA.executeAll t fns).1.pendingRequests := by
    intro id hid
    rw [hpending, hpend, List.nil_append, ← hids]
    exact hperm.mem_iff.mp hid
  have hdeliver := MgrA.deliverAll_pairs V (MgrA.executeAll t fns).1 order f hsub hordnodup
  intro id hid
  rw [hdeliver, hset, hsettled, List.nil_append]
  exact MgrA.lookup_map_pairs V order (fun i => MgrA.Outcome.ok (f i)) id hordnodup
    (hperm.mem_iff.mpr hid)

/-- Witness for C4: two concurrent executes on a fresh ready manager whose
results arrive in reversed order still resolve by id. -/
theorem claim_C4_results_paired_by_id_witness :
    sReadyEmpty.isThreadPoolHostReady = true ∧ sReadyEmpty.pendingRequests = [] ∧
    sReadyEmpty.settled = [] ∧
    List.Perm [4, 3] (MgrA.executeAll sReadyEmpty ["a", "b"]).2 ∧
    ∀ id ∈ (MgrA.executeAll sReadyEmpty ["a", "b"]).2,
      List.lookup id
        ((MgrA.deliverAll (MgrA.executeAll sReadyEmpty ["a", "b"]).1
            ([4, 3].map fun i => MgrA.HostMsg.result i true (i * 10) "")).settled)
        = some (MgrA.Outcome.ok (id * 10)) :=
  ⟨rfl, rfl, rfl, by decide,
    claim_C4_results_paired_by_id Nat sReadyEmpty ["a", "b"] (fun i => i * 10) [4, 3]
      rfl rfl rfl (by decide)⟩

namespace Host

theorem handleExecute_requestId (V : Type) (wasmModule : WasmModule V) (m : ExecMsg V) :
    (handleExecute wasmModule m).requestId = m.requestId := by
  unfold handleExecute
  split <;> rfl

theorem handleExecute_missing (V : Type) (wasmModule : WasmModule V) (m : ExecMsg V)
    (h : wasmModule m.functionName = none) :
    handleExecute wasmModule m
      = { requestId := m.requestId, success := false, result := none,
          error := some (errorToString
            ("Function \x27" ++ m.functionName ++ "\x27 not found")) } := by
  unfold handleExecute
  rw [h]

theorem processMessages_append (V : Type) (wasmModule : WasmModule V)
    (l1 l2 : List (ExecMsg V)) :
    processMessages wasmModule (l1 ++ l2)
      = processMessages wasmModule l1 ++ processMessages wasmModule l2 := by
  induction l1 with
  | nil => rfl
  | cons m rest ih => simp [processMessages, ih]

/-- Requests with other ids contribute nothing when filtering the output
stream by one requestId. -/
theorem processMessages_filter_ne (V : Type) (wasmModule : WasmModule V)
    (l : List (ExecMsg V)) (rid : Nat)
    (hne : ∀ m ∈ l, m.requestId ≠ rid) :
    (processMessages wasmModule l).filter (fun r => r.requestId == rid) = [] := by
  induction l with
  | nil => rfl
  | cons m rest ih =>
    have hm : ((handleExecute wasmModule m).requestId == rid) = false := by
      rw [handleExecute_requestId]
      simp [hne m (List.mem_cons_self m rest)]
    show List.filter _ (handleExecute wasmModule m :: processMessages wasmModule rest) = []
    rw [List.filter_cons_of_neg (by simp [hm])]
    exact ih fun m2 hm2 => hne m2 (List.mem_cons_of_mem m hm2)

end Host

/-- C6: when the host receives an execute request whose functionName is not
an exported wasm function, it posts exactly one result message for that
requestId, carrying success=false and an error naming the missing function,
and the handling of every other request in the stream is unchanged. -/
theorem claim_C6_unknown_function (V : Type) (wasmModule : Host.WasmModule V)
    (req : Host.ExecMsg V) (pre post : List (Host.ExecMsg V))
    (hmissing : wasmModule req.functionName = none)
    (hfresh : ∀ m ∈ pre ++ post, m.requestId ≠ req.requestId) :
    Host.processMessages wasmModule (pre ++ req :: post)
      = Host.processMessages wasmModule pre
        ++ Host.handleExecute wasmModule req :: Host.processMessages wasmModule post ∧
    Host.handleExecute wasmModule req
      = { requestId := req.requestId, success := false, result := none,
          error := some (Host.errorToString
            ("Function \x27" ++ req.functionName ++ "\x27 not found")) } ∧
    ((Host.processMessages wasmModule (pre ++ req :: post)).filter
        (fun r => r.requestId == req.requestId)).length = 1 := by
  have hpre : ∀ m ∈ pre, m.requestId ≠ req.requestId := fun m hm =>
    hfresh m (List.mem_append_left post hm)
  have hpost : ∀ m ∈ post, m.requestId ≠ req.requestId := fun m hm =>
    hfresh m (List.mem_append_right pre hm)
  have hsplit : Host.processMessages wasmModule (pre ++ req :: post)
      = Host.processMessages wasmModule pre
        ++ Host.handleExecute wasmModule req :: Host.processMessages wasmModule post := by
    rw [Host.processMessages_append]
    rfl
  refine ⟨hsplit, Host.handleExecute_missing V wasmModule req hmissing, ?_⟩
  rw [hsplit, List.filter_append]
  rw [Host.processMessages_filter_ne V wasmModule pre req.requestId hpre]
  rw [List.nil_append]
  rw [List.filter_cons_of_pos (by simp [Host.handleExecute_requestId])]
  rw [Host.processMessages_filter_ne V wasmModule post req.requestId hpost]
  rfl

/-- Concrete wasm module exposing only `multithreadedSum`. -/
def demoModule : Host.WasmModule Nat :=
  fun functionName =>
    if functionName = "multithreadedSum" then
      some (fun args => args.foldl (fun a b => a + b) 0)
    else none

/-- Witness for C6: a stream of three requests in which the middle one
names a missing export. -/
theorem claim_C6_unknown_function_witness :
    demoModule "missingFn" = none ∧
    (∀ m ∈ ([⟨1, "multithreadedSum", [1, 2]⟩] :
        List (Host.ExecMsg Nat)) ++ [⟨3, "multithreadedSum", [5]⟩],
      m.requestId ≠ 2) ∧
    (Host.processMessages demoModule
        ([⟨1, "multithreadedSum", [1, 2]⟩]
          ++ (⟨2, "missingFn", []⟩ : Host.ExecMsg Nat) :: [⟨3, "multithreadedSum", [5]⟩])
      = Host.processMessages demoModule [⟨1, "multithreadedSum", [1, 2]⟩]
        ++ Host.handleExecute demoModule ⟨2, "missingFn", []⟩
          :: Host.processMessages demoModule [⟨3, "multithreadedSum", [5]⟩] ∧
    Host.handleExecute demoModule ⟨2, "missingFn", []⟩
      = { requestId := 2, success := false, result := none,
          error := some (Host.errorToString
            ("Function \x27" ++ "missingFn" ++ "\x27 not found")) } ∧
    ((Host.processMessages demoModule
        ([⟨1, "multithreadedSum", [1, 2]⟩]
          ++ (⟨2, "missingFn", []⟩ : Host.ExecMsg Nat) :: [⟨3, "multithreadedSum", [5]⟩])).filter
        (fun r => r.requestId == 2)).length = 1) :=
  ⟨rfl, by decide,
    claim_C6_unknown_function Nat demoModule ⟨2, "missingFn", []⟩
      [⟨1, "multithreadedSum", [1, 2]⟩] [⟨3, "multithreadedSum", [5]⟩] rfl (by decide)⟩
